import Mathlib

/-!
Verification of the plumbum process-supervision core
(`plumbum/commands/processes.py` and `plumbum/machines/paramiko_machine.py`)
against its natural-language specification.

The Python code is shallowly embedded: a process handle becomes an explicit
record of the attributes the supervised-execution code reads and writes,
raising an exception becomes returning `Except.error`, and the mutable
heap/queue state of the timeout thread becomes explicit state passing.
Bytes are modelled as `List Nat` (one byte per element).
-/

namespace Plumbum

/-- Captured output of one stream: raw bytes when no encoding is configured
(`proc.communicate()` and the raw `decode = lambda s: s` path), decoded text
when one is. -/
inductive OutData where
  | bytes (bs : List Nat)
  | text (s : String)
deriving DecidableEq, Repr

/-- Outcome of raising one of the module's exception classes.  The first three
constructors mirror `ProcessExecutionError`, `ProcessTimedOut` and
`ProcessLineTimedOut` from `plumbum/commands/processes.py` (each carries
exactly the fields the class stores); `osError`, `typeError` and
`unicodeDecodeError` model the corresponding Python builtins, and
`unsupportedOperation` models the `UnsupportedOperation` condition named by
the specification's error surface (no code in the repository raises it). -/
inductive ProcError where
  | processExecutionError (argv : List String) (retcode : Option Int)
      (stdout stderr : OutData) (machine : String)
  | processTimedOut (argv : List String) (machine : String)
  | processLineTimedOut (msg : String) (argv : List String) (machine : String)
  | osError (msg : String)
  | typeError
  | unicodeDecodeError
  | unsupportedOperation (msg : String)
deriving DecidableEq, Repr

/-- The `retcode` argument of `run_proc` / `iter_lines` / `verify`:
`None` (no check), a bare integer, or a container of acceptable codes
(`hasattr(retcode, "__contains__")` in the Python code). -/
inductive RetcodeSpec where
  | noCheck
  | single (k : Int)
  | codes (cs : List Int)
deriving DecidableEq, Repr

/-- Attribute slot `proc.stdout` / `proc.stderr`: normally an I/O channel
(with an open/closed state), but `iter_lines` overwrites it with the captured
text on normal exhaustion. -/
inductive StreamAttr where
  | chan (isOpen : Bool)
  | text (s : String)
deriving DecidableEq, Repr

/-- A process handle ("Popen-like object").  Fields are the attributes that
`plumbum/commands/processes.py` and `ParamikoPopen` read or write on a handle:
`argv`, `machine`, `encoding`, `returncode`, the `_timed_out` flag set by the
timeout thread, plus explicit stand-ins for behaviour the embedding must make
observable: `pid` is the handle's identity, `killRaisesOS` says whether
`kill()` raises `OSError` (always true for `ParamikoPopen`, true for an
already-exited local process), `hasClose` is the duck-typed
`callable(getattr(proc, "close", None))` test, `commStdout`/`commStderr` are
what `communicate()` returns for each stream (`none` for an unpiped stream),
and the channel fields carry the open/closed state touched by
`_abort_process`. -/
structure Proc where
  argv : List String
  machine : String
  encoding : Option String
  returncode : Option Int
  timed_out : Bool
  pid : Nat
  killRaisesOS : Bool
  hasClose : Bool
  commStdout : Option (List Nat)
  commStderr : Option (List Nat)
  stdinOpen : Bool
  stdoutAttr : StreamAttr
  stderrAttr : StreamAttr
  closedCalled : Bool
deriving DecidableEq, Repr

/-- Python truthiness of the optional `encoding` attribute
(`getattr(proc, "encoding", None)` followed by `if encoding:`): an absent
encoding and the empty string are falsy. -/
def encTruthy : Option String → Bool
  | none => false
  | some s => !s.isEmpty

/-- Python truthiness of the optional `line_timeout` (a number or `None`):
`None` and `0` are falsy. -/
def ltTruthy : Option Nat → Bool
  | none => false
  | some t => t != 0

/-- Membership of an exit code in a non-absent expected-code specification
(a bare single value treated as a one-element set). -/
def codeMem : RetcodeSpec → Int → Bool
  | .noCheck, _ => false
  | .single k, c => c == k
  | .codes cs, c => cs.contains c

/-- Modelled from the spec: `PopenAddons.verify` (defined in
`plumbum/machines/base.py`, which is not part of the sources) is the Result
Classifier of spec §4.5.  Per the spec it first checks the handle's timed-out
flag and fails with `ProcessTimedOut` carrying the command line and machine
identity; otherwise, if `expectedCodes` is not absent and the actual exit code
is not a member of it, it fails with `ProcessExecutionError` carrying the
command line, exit code, captured stdout/stderr and machine identity;
otherwise it succeeds. -/
def verify (proc : Proc) (retcode : RetcodeSpec) (timeout : Option Nat)
    (stdout stderr : OutData) : Except ProcError Unit :=
  if proc.timed_out then
    .error (.processTimedOut proc.argv proc.machine)
  else
    match retcode with
    | .noCheck => .ok ()
    | .single k =>
        if proc.returncode = some k then .ok ()
        else .error (.processExecutionError proc.argv proc.returncode stdout stderr proc.machine)
    | .codes cs =>
        if proc.returncode.elim false (fun c => cs.contains c) then .ok ()
        else .error (.processExecutionError proc.argv proc.returncode stdout stderr proc.machine)

/-- Embedding of `_check_process` (processes.py lines 22-33): run
`proc.verify`, re-raising any failure, and on success return
`(proc.returncode, stdout, stderr)`.  The duck-typed `on_fail` / `on_done`
callbacks are invoked only for their side effects and cannot change the
returned value or the re-raised exception, so they do not appear in the
embedding. -/
def _check_process (proc : Proc) (retcode : RetcodeSpec) (timeout : Option Nat)
    (stdout stderr : OutData) : Except ProcError (Option Int × OutData × OutData) :=
  match verify proc retcode timeout stdout stderr with
  | .error e => .error e
  | .ok () => .ok (proc.returncode, stdout, stderr)

/-- A concrete handle used to instantiate witnesses: exited with code 0,
not timed out, channels open. -/
def sampleProc : Proc where
  argv := ["true"]
  machine := "local"
  encoding := none
  returncode := some 0
  timed_out := false
  pid := 1
  killRaisesOS := false
  hasClose := true
  commStdout := none
  commStderr := none
  stdinOpen := true
  stdoutAttr := .chan true
  stderrAttr := .chan true
  closedCalled := false

/-- Embedding of `ParamikoPopen.kill` (paramiko_machine.py lines 61-65): it
unconditionally raises `OSError("Cannot kill remote processes, we don't have
their PIDs")`. -/
def ParamikoPopen.kill (_p : Proc) : Except ProcError Unit :=
  .error (.osError "Cannot kill remote processes, we don\x27t have their PIDs")

/-- Predicate used to state C3: does a result consist of raising the
specification's `UnsupportedOperation` condition? -/
def isUnsupportedOp : Except ProcError Unit → Bool
  | .error (.unsupportedOperation _) => true
  | _ => false

/-- Embedding of one iteration of the readiness loop in the local
`_iter_lines.selector` (processes.py lines 63-72): `ready` is the list of
streams the readiness wait reported (0 = stdout, 1 = stderr); if the wait
expired with nothing ready and `line_timeout` is truthy, raise
`ProcessLineTimedOut("popen line timeout expired", proc.argv, proc.machine)`,
otherwise hand the ready streams on. -/
def selectorStep (proc : Proc) (line_timeout : Option Nat)
    (ready : List (Fin 2)) : Except ProcError (List (Fin 2)) :=
  if ready.isEmpty && ltTruthy line_timeout then
    .error (.processLineTimedOut "popen line timeout expired" proc.argv proc.machine)
  else
    .ok ready

/-- Embedding of one iteration of the readiness loop in the paramiko
`_iter_lines.selector` (paramiko_machine.py lines 446-455): only
`proc.stdout.channel` is registered, so readiness is a single flag; the
timeout branch is identical to the local one. -/
def paramikoSelectorStep (proc : Proc) (line_timeout : Option Nat)
    (chanReady : Bool) : Except ProcError Bool :=
  if !chanReady && ltTruthy line_timeout then
    .error (.processLineTimedOut "popen line timeout expired" proc.argv proc.machine)
  else
    .ok chanReady

/-- Embedding of the body of the overdue-entry loop in `_timeout_thread_func`
(processes.py lines 184-189): `poll()` then `kill()`, with `OSError` from the
kill swallowed.  Note the order in the source: `proc._timed_out = True` runs
only after `proc.kill()` returned, so a kill that raises `OSError` leaves the
flag unset. -/
def sweepStep (proc : Proc) : Proc :=
  if proc.returncode = none then
    if proc.killRaisesOS then proc
    else { proc with timed_out := true }
  else proc

/-- Embedding of the sweep loop in `_timeout_thread_func` (processes.py lines
178-189): the heap is a list sorted by deadline (`peek` is the head, `pop`
drops it); entries are popped and processed while the front deadline has
passed, and the loop breaks at the first entry whose deadline is still in the
future.  Returns the remaining heap and the processed handles. -/
def sweep (now : Nat) : List (Nat × Proc) → List (Nat × Proc) × List Proc
  | [] => ([], [])
  | (ttk, proc) :: rest =>
      if now < ttk then ((ttk, proc) :: rest, [])
      else
        let r := sweep now rest
        (r.1, sweepStep proc :: r.2)

/-- C2 counterexample: a handle whose `kill()` raises `OSError` (as every
`ParamikoPopen` does), registered with an already-passed deadline and not yet
exited, is swept but its timed-out flag is left unset — the claim says the
marking happens for every such process. -/
def paramikoStyleProc : Proc :=
  { sampleProc with returncode := none, killRaisesOS := true }

/-- Witness for C2 (amended) at a concrete heap. -/
def overdueProc : Proc := { sampleProc with returncode := none, pid := 2 }

/-- One entry of the timeout thread's `MinHeap`, as pushed by
`waiting.push((time_to_kill, proc))`: the deadline timestamp paired with the
process object, the latter represented by its identity (`pid`) — the only
thing Python's default object equality observes. -/
abbrev HeapEntry := Nat × Nat

/-- Python comparison of two `(time_to_kill, proc)` tuples, as invoked by
`heapq`: the deadlines are compared first; on a tie the comparison falls
through to the process objects, which define no ordering, so unless the two
entries are identical the comparison raises `TypeError`. -/
def entryLt (a b : HeapEntry) : Except ProcError Bool :=
  if a.1 = b.1 then
    (if a.2 = b.2 then .ok false else .error .typeError)
  else .ok (decide (a.1 < b.1))

/-- Embedding of CPython's `heapq._siftdown(heap, 0, pos)` loop: compare the
new item with its parent, move the parent down while the new item is smaller,
and write the new item at the final position.  The first argument is fuel
bounding the strictly decreasing position (`fuel = pos` at the top-level call
always suffices, since the parent position `pos / 2` is below `pos`); it only
makes the loop structurally recursive and never runs out. -/
def siftdownAux : Nat → HeapEntry → List HeapEntry → Nat → Except ProcError (List HeapEntry)
  | _, newitem, heap, 0 => .ok (heap.set 0 newitem)
  | 0, newitem, heap, pos => .ok (heap.set pos newitem)
  | fuel + 1, newitem, heap, pos + 1 =>
      let parentpos := pos / 2
      let parent := heap.getD parentpos (0, 0)
      match entryLt newitem parent with
      | .error e => .error e
      | .ok true => siftdownAux fuel newitem (heap.set (pos + 1) parent) parentpos
      | .ok false => .ok (heap.set (pos + 1) newitem)

/-- CPython `heapq._siftdown(heap, 0, pos)`. -/
def _siftdown (newitem : HeapEntry) (heap : List HeapEntry) (pos : Nat) :
    Except ProcError (List HeapEntry) :=
  siftdownAux pos newitem heap pos

/-- CPython `heapq.heappush`, as used by `MinHeap.push`: append the item and
sift it down from the last position. -/
def heappush (heap : List HeapEntry) (item : HeapEntry) :
    Except ProcError (List HeapEntry) :=
  _siftdown item (heap ++ [item]) heap.length

/-- Ascii-subset model of Python's `bytes.decode(encoding, "ignore")`:
well-formed bytes (below `0x80`, the subset on which the supported encodings
agree) decode to themselves, malformed bytes are dropped instead of
failing. -/
def pyDecodeIgnore (bs : List Nat) : String :=
  String.mk (bs.filterMap (fun b => if b < 128 then some (Char.ofNat b) else none))

/-- Embedding of `_register_proc_timeout` (processes.py lines 201-203): a
no-op when `timeout` is `None`, otherwise enqueue
`(proc, time.time() + timeout)` on the supervisor's inbound queue. -/
def _register_proc_timeout (queue : List (Nat × Nat)) (now : Nat) (pid : Nat)
    (timeout : Option Nat) : List (Nat × Nat) :=
  match timeout with
  | none => queue
  | some t => queue ++ [(pid, now + t)]

/-- Embedding of `run_proc` (processes.py lines 217-246): register the
timeout, `communicate()` (whose per-stream results sit in the handle's
`commStdout`/`commStderr`, with falsy results replaced by `b""`), decode both
streams with errors ignored when an encoding is configured, then classify via
`_check_process`.  The supervisor queue is threaded explicitly; the
`_end_time` bookkeeping attribute is not observable by any claim and is
omitted. -/
def run_proc (queue : List (Nat × Nat)) (now : Nat) (proc : Proc)
    (retcode : RetcodeSpec) (timeout : Option Nat) :
    List (Nat × Nat) × Except ProcError (Option Int × OutData × OutData) :=
  let queue2 := _register_proc_timeout queue now proc.pid timeout
  let stdout := match proc.commStdout with | none => [] | some bs => bs
  let stderr := match proc.commStderr with | none => [] | some bs => bs
  if encTruthy proc.encoding then
    (queue2, _check_process proc retcode timeout
      (.text (pyDecodeIgnore stdout)) (.text (pyDecodeIgnore stderr)))
  else
    (queue2, _check_process proc retcode timeout (.bytes stdout) (.bytes stderr))

/-- A handle with a configured encoding and no output, for the C6 witness. -/
def encodedProc : Proc := { sampleProc with encoding := some "utf8" }

/-- Equality of `Except` values is decidable when both components are. -/
instance exceptDecEq {ε α : Type} [DecidableEq ε] [DecidableEq α] :
    DecidableEq (Except ε α) := fun x y =>
  match x, y with
  | .ok a, .ok b =>
      if h : a = b then isTrue (by rw [h])
      else isFalse (fun hc => h (Except.ok.inj hc))
  | .error e, .error f =>
      if h : e = f then isTrue (by rw [h])
      else isFalse (fun hc => h (Except.error.inj hc))
  | .ok _, .error _ => isFalse (fun hc => Except.noConfusion hc)
  | .error _, .ok _ => isFalse (fun hc => Except.noConfusion hc)

/-- The sentinel `iter_lines` splices over older buffered lines
(processes.py line 292). -/
def elisionMarker : String := "<...previous lines omitted...>"

/-- Embedding of the per-line accumulator update in `iter_lines` (processes.py
lines 289-292): append the line, and if the buffer now holds more than 100
entries, replace its first two entries by the single elision marker. -/
def buffPush (buff : List String) (line : String) : List String :=
  if 100 < (buff ++ [line]).length then elisionMarker :: (buff ++ [line]).drop 2
  else buff ++ [line]

/-- The accumulator a stream's buffer reaches after receiving a sequence of
lines, starting empty. -/
def buffFold (lines : List String) : List String :=
  List.foldl buffPush [] lines

/-- Ascii-subset model of Python's strict `bytes.decode(encoding)`, as used by
the `iter_lines` decode function: fails with `UnicodeDecodeError` on a
malformed byte instead of dropping it. -/
def pyDecodeStrict (bs : List Nat) : Except ProcError String :=
  if bs.all (fun b => b < 128) then .ok (pyDecodeIgnore bs) else .error .unicodeDecodeError

/-- Python `str.isspace` characters within the ascii range, the set removed by
`str.rstrip()`. -/
def isPySpace (c : Char) : Bool :=
  c = ' ' || c = '\t' || c = '\n' || c = '\r' || c = Char.ofNat 11 || c = Char.ofNat 12

/-- Model of Python `str.rstrip()` (no argument): remove every trailing
whitespace character. -/
def pyRstrip (s : String) : String :=
  String.mk ((s.toList.reverse.dropWhile isPySpace).reverse)

/-- Embedding of the decode function `iter_lines` builds (processes.py lines
276-280): with a truthy encoding it is `lambda s: s.decode(encoding).rstrip()`,
otherwise the raw pass-through `lambda s: s`. -/
def iterDecodeFn (proc : Proc) (bs : List Nat) : Except ProcError OutData :=
  if encTruthy proc.encoding then
    match pyDecodeStrict bs with
    | .error e => .error e
    | .ok s => .ok (.text (pyRstrip s))
  else .ok (.bytes bs)

/-- Closing the channel held in a `proc.stdout` / `proc.stderr` slot. -/
def closeAttr : StreamAttr → StreamAttr
  | .chan _ => .chan false
  | .text s => .text s

/-- Embedding of `_abort_process` (processes.py lines 36-44): call the
handle's `close` when it is callable, then close the stdin, stdout and stderr
channels; the optional `on_abort` callback is effect-only and does not change
the handle. -/
def _abort_process (proc : Proc) (timeout : Option Nat) : Proc :=
  { proc with
      closedCalled := proc.closedCalled || proc.hasClose
      stdinOpen := false
      stdoutAttr := closeAttr proc.stdoutAttr
      stderrAttr := closeAttr proc.stderrAttr }

/-- The `(out, err)` line record `iter_lines` yields for a tagged line
(`ret = [None, None]; ret[t] = line`): exactly one slot populated. -/
def recordOf (r : Fin 2 × String) : Option String × Option String :=
  if r.1 = 0 then (some r.2, none) else (none, some r.2)

/-- One step of the accumulator bookkeeping in the `iter_lines` loop
(`buff = buffers[t]; buff.append(line); ...`). -/
def buffAppend (bufs : List String × List String) (r : Fin 2 × String) :
    List String × List String :=
  if r.1 = 0 then (buffPush bufs.1 r.2, bufs.2) else (bufs.1, buffPush bufs.2 r.2)

/-- The pair of accumulators after the `iter_lines` loop consumed a sequence
of tagged lines. -/
def runBuffers (records : List (Fin 2 × String)) : List String × List String :=
  List.foldl buffAppend ([], []) records

/-- How the consumer drives the `iter_lines` generator: drain it to normal
exhaustion, or pull `n ≥ 1` records and then close it, which raises
`GeneratorExit` at the suspended `yield`. -/
inductive Consumption where
  | all
  | abortAfter (n : Nat)

/-- How an `iter_lines` run ends: the abandonment (`GeneratorExit`)
propagated, or the loop was exhausted and the final `_check_process` produced
this result. -/
inductive IterOutcome where
  | aborted
  | completed (r : Except ProcError (Option Int × OutData × OutData))

/-- Embedding of the generator body of `iter_lines` (processes.py lines
284-301) driven by a consumer.  `records` is the decoded tagged-line sequence
the inner `_iter_lines` produces.  On early abandonment (lines 294-297) the
already-yielded records stand, `_abort_process` runs iff `close_on_abort`,
and the `GeneratorExit` propagates.  On normal exhaustion (lines 299-301) the
handle's `stdout`/`stderr` attributes are overwritten with the newline-joined
accumulators and `_check_process` runs on them.  Returns the yielded records,
the final handle state, and the outcome. -/
def iter_lines_run (proc : Proc) (records : List (Fin 2 × String))
    (retcode : RetcodeSpec) (timeout : Option Nat) (close_on_abort : Bool) :
    Consumption → List (Option String × Option String) × Proc × IterOutcome
  | .abortAfter n =>
      ((records.take n).map recordOf,
        if close_on_abort then _abort_process proc timeout else proc,
        .aborted)
  | .all =>
      ((records.map recordOf),
        { proc with
            stdoutAttr := .text (String.intercalate "\n" (runBuffers records).1)
            stderrAttr := .text (String.intercalate "\n" (runBuffers records).2) },
        .completed (_check_process
          { proc with
              stdoutAttr := .text (String.intercalate "\n" (runBuffers records).1)
              stderrAttr := .text (String.intercalate "\n" (runBuffers records).2) }
          retcode timeout
          (.text (String.intercalate "\n" (runBuffers records).1))
          (.text (String.intercalate "\n" (runBuffers records).2))))

/-- A two-line tagged output used as the C7 failing input. -/
def chattyRecords : List (Fin 2 × String) := [(0, "a"), (1, "b")]

/-- Characterization of `_check_process` on a handle that has exited with
code `c` and is not timed out; shared by the classifier and driver proofs. -/
theorem check_process_spec (proc : Proc) (S : RetcodeSpec) (t : Option Nat)
    (out err : OutData) (c : Int)
    (h1 : proc.timed_out = false) (h2 : proc.returncode = some c) :
    (_check_process proc S t out err = .ok (some c, out, err)
      ↔ (S = RetcodeSpec.noCheck ∨ codeMem S c = true))
    ∧ (S ≠ RetcodeSpec.noCheck → codeMem S c = false →
        _check_process proc S t out err
          = .error (.processExecutionError proc.argv (some c) out err proc.machine)) := by
  unfold _check_process verify
  rw [h1, h2]
  cases S with
  | noCheck => simp [codeMem]
  | single k =>
      by_cases hk : c = k <;> simp [codeMem, hk]
  | codes cs =>
      by_cases hc : c ∈ cs
      · simp [codeMem, hc, List.elem_iff]
      · simp [codeMem, hc, List.elem_iff]

/-- C1: for a handle whose timed-out flag is not set and whose actual exit
code is `c`, the Result Classifier reached through `_check_process` succeeds
with `(returncode, stdout, stderr)` iff the expected-code specification is
absent or contains `c`; otherwise it fails with `ProcessExecutionError`
carrying argv, retcode, stdout, stderr and machine. -/
theorem C1_result_classifier (proc : Proc) (S : RetcodeSpec) (t : Option Nat)
    (out err : OutData) (c : Int)
    (h1 : proc.timed_out = false) (h2 : proc.returncode = some c) :
    (_check_process proc S t out err = .ok (some c, out, err)
      ↔ (S = RetcodeSpec.noCheck ∨ codeMem S c = true))
    ∧ (S ≠ RetcodeSpec.noCheck → codeMem S c = false →
        _check_process proc S t out err
          = .error (.processExecutionError proc.argv (some c) out err proc.machine)) :=
  check_process_spec proc S t out err c h1 h2

/-- Witness for C1 at a concrete handle. -/
theorem C1_result_classifier_witness :
    (_check_process sampleProc (RetcodeSpec.single 0) none (OutData.text "") (OutData.text "")
        = .ok (some 0, OutData.text "", OutData.text "")
      ↔ (RetcodeSpec.single 0 = RetcodeSpec.noCheck ∨ codeMem (RetcodeSpec.single 0) 0 = true))
    ∧ (RetcodeSpec.single 0 ≠ RetcodeSpec.noCheck → codeMem (RetcodeSpec.single 0) 0 = false →
        _check_process sampleProc (RetcodeSpec.single 0) none (OutData.text "") (OutData.text "")
          = .error (.processExecutionError sampleProc.argv (some 0)
              (OutData.text "") (OutData.text "") sampleProc.machine)) :=
  C1_result_classifier sampleProc (RetcodeSpec.single 0) none
    (OutData.text "") (OutData.text "") 0 rfl rfl

/-- C3 counterexample: `ParamikoPopen.kill` raises a plain `OSError`, not the
`UnsupportedOperation` condition the claim names (and it is not a silent
no-op either). -/
theorem C3_counterexample :
    ParamikoPopen.kill sampleProc
        = .error (.osError "Cannot kill remote processes, we don\x27t have their PIDs")
    ∧ isUnsupportedOp (ParamikoPopen.kill sampleProc) = false
    ∧ ParamikoPopen.kill sampleProc ≠ .ok () := by
  refine ⟨rfl, rfl, fun h => ?_⟩
  exact Except.noConfusion h

/-- C3 amended: calling `kill()` on a remote (Paramiko-backed) process handle
always fails — never a silent no-op — but the condition raised is a plain
`OSError` with message `Cannot kill remote processes, we don't have their
PIDs`, not a distinct `UnsupportedOperation` condition. -/
theorem C3_kill_raises_oserror (p : Proc) :
    ParamikoPopen.kill p
      = .error (.osError "Cannot kill remote processes, we don\x27t have their PIDs") :=
  rfl

/-- C4: with a positive per-line deadline configured, a readiness wait that
expires with neither stream ready raises `ProcessLineTimedOut` carrying the
command line and the machine identity — in both the local and the paramiko
selector, and for every handle state (in particular a still-running,
not-overall-timed-out one). -/
theorem C4_line_timeout (proc : Proc) (t : Nat) (ht : 0 < t) :
    selectorStep proc (some t) []
        = .error (.processLineTimedOut "popen line timeout expired" proc.argv proc.machine)
    ∧ paramikoSelectorStep proc (some t) false
        = .error (.processLineTimedOut "popen line timeout expired" proc.argv proc.machine) := by
  have htr : ltTruthy (some t) = true := by
    simp [ltTruthy]
    omega
  constructor
  · simp [selectorStep, htr]
  · simp [paramikoSelectorStep, htr]

/-- Witness for C4 at a concrete handle and deadline. -/
theorem C4_line_timeout_witness :
    selectorStep sampleProc (some 1) []
        = .error (.processLineTimedOut "popen line timeout expired"
            sampleProc.argv sampleProc.machine)
    ∧ paramikoSelectorStep sampleProc (some 1) false
        = .error (.processLineTimedOut "popen line timeout expired"
            sampleProc.argv sampleProc.machine) :=
  C4_line_timeout sampleProc 1 (by decide)

/-- The sweep processes exactly the longest overdue prefix of the heap. -/
theorem sweep_processed_eq (now : Nat) :
    ∀ entries : List (Nat × Proc),
      (sweep now entries).2
        = (entries.takeWhile (fun e => decide (e.1 ≤ now))).map (fun e => sweepStep e.2)
  | [] => rfl
  | (ttk, proc) :: rest => by
      by_cases h : now < ttk
      · simp [sweep, h, List.takeWhile, Nat.not_le_of_lt h]
      · simp [sweep, h, List.takeWhile, Nat.le_of_not_lt h,
          sweep_processed_eq now rest]

/-- In a deadline-sorted list, every overdue entry lies in the overdue
prefix. -/
theorem mem_takeWhile_overdue (now : Nat) :
    ∀ entries : List (Nat × Proc),
      entries.Pairwise (fun a b => a.1 ≤ b.1) →
      ∀ e ∈ entries, e.1 ≤ now →
        e ∈ entries.takeWhile (fun x => decide (x.1 ≤ now))
  | [], _, e, he, _ => absurd he (List.not_mem_nil e)
  | a :: rest, hsort, e, he, hdl => by
      have ha : ∀ b ∈ rest, a.1 ≤ b.1 := (List.pairwise_cons.mp hsort).1
      rcases List.mem_cons.mp he with rfl | hmem
      · simp [List.takeWhile, hdl]
      · have hanow : a.1 ≤ now := le_trans (ha e hmem) hdl
        have ih := mem_takeWhile_overdue now rest (List.pairwise_cons.mp hsort).2 e hmem hdl
        simp [List.takeWhile, hanow]
        exact Or.inr ih

/-- C2 counterexample theorem: the deadline (5) has passed at `now = 10` and
`poll()` reports not-exited, yet after the sweep the processed handle's
timed-out flag is still `false`. -/
theorem C2_counterexample :
    paramikoStyleProc.returncode = none
    ∧ paramikoStyleProc.timed_out = false
    ∧ (sweep 10 [(5, paramikoStyleProc)]).2.map Proc.timed_out = [false] := by
  decide

/-- C2 amended: for every entry of a deadline-sorted heap whose deadline has
passed and whose process `poll()` reports as not yet exited, the sweep
processes the entry and attempts the kill; the timed-out flag is set whenever
the kill does not raise `OSError` (a raising kill — e.g. an already-exited
process, or a backend that cannot kill — is swallowed and leaves the flag
unset), and a handle so marked is classified as `ProcessTimedOut` rather than
exit-code mismatch by every subsequent `verify`. -/
theorem C2_sweep_marks_killed (now ttk : Nat) (p : Proc)
    (entries : List (Nat × Proc))
    (hsort : entries.Pairwise (fun a b => a.1 ≤ b.1))
    (hmem : (ttk, p) ∈ entries) (hdl : ttk ≤ now)
    (hpoll : p.returncode = none) (hkill : p.killRaisesOS = false) :
    sweepStep p ∈ (sweep now entries).2
    ∧ (sweepStep p).timed_out = true
    ∧ ∀ (S : RetcodeSpec) (t : Option Nat) (out err : OutData),
        verify (sweepStep p) S t out err
          = .error (.processTimedOut p.argv p.machine) := by
  refine ⟨?_, ?_, ?_⟩
  · rw [sweep_processed_eq]
    exact List.mem_map_of_mem (fun e => sweepStep e.2)
      (mem_takeWhile_overdue now entries hsort (ttk, p) hmem hdl)
  · simp [sweepStep, hpoll, hkill]
  · intro S t out err
    simp [verify, sweepStep, hpoll, hkill]

/-- Witness theorem for C2 (amended). -/
theorem C2_sweep_marks_killed_witness :
    sweepStep overdueProc ∈ (sweep 10 [(3, overdueProc)]).2
    ∧ (sweepStep overdueProc).timed_out = true
    ∧ verify (sweepStep overdueProc) (RetcodeSpec.single 0) none
        (OutData.text "") (OutData.text "")
        = .error (.processTimedOut overdueProc.argv overdueProc.machine) := by
  have h := C2_sweep_marks_killed 10 3 overdueProc [(3, overdueProc)]
    (by simp) (by simp) (by omega) rfl rfl
  exact ⟨h.1, h.2.1, h.2.2 _ _ _ _⟩

/-- C5: two registrations with distinct deadlines insert fine, but a second
entry sharing the deadline timestamp of one already in the heap makes
`heappush` compare the two process objects and raise `TypeError` — the claim
that every pair of equal-deadline registrations inserts without error fails
on the code. -/
theorem C5_equal_deadline_typeerror :
    heappush [] (5, 0) = .ok [(5, 0)]
    ∧ heappush [(5, 0)] (6, 1) = .ok [(5, 0), (6, 1)]
    ∧ heappush [(5, 0)] (5, 1) = .error .typeError :=
  ⟨rfl, rfl, rfl⟩

/-- C6: `run_proc` leaves the supervisor queue untouched when no timeout is
given and registers `now + timeout` when one is; for a handle that exited
with an accepted code and is not timed out it succeeds with the triple
`(returncode, stdout, stderr)` for any bytes `communicate` produced (malformed
bytes are ignored, never a failure), outputs are decoded to text whenever an
encoding is configured, and a silent process yields empty strings, not absent
values. -/
theorem C6_run_proc (queue : List (Nat × Nat)) (now : Nat) (proc : Proc)
    (S : RetcodeSpec) (c : Int) (t : Nat)
    (h1 : proc.timed_out = false) (h2 : proc.returncode = some c)
    (h3 : S = RetcodeSpec.noCheck ∨ codeMem S c = true) :
    ((run_proc queue now proc S none).1 = queue)
    ∧ ((run_proc queue now proc S (some t)).1 = queue ++ [(proc.pid, now + t)])
    ∧ (∃ out err : OutData, (run_proc queue now proc S none).2 = .ok (some c, out, err))
    ∧ (encTruthy proc.encoding = true →
        ∃ s1 s2 : String,
          (run_proc queue now proc S none).2 = .ok (some c, .text s1, .text s2))
    ∧ (proc.commStdout = none → proc.commStderr = none →
        encTruthy proc.encoding = true →
        (run_proc queue now proc S none).2 = .ok (some c, .text "", .text "")) := by
  refine ⟨?_, ?_, ?_, ?_, ?_⟩
  · cases h : encTruthy proc.encoding <;>
      simp [run_proc, _register_proc_timeout, h]
  · cases h : encTruthy proc.encoding <;>
      simp [run_proc, _register_proc_timeout, h]
  · cases h : encTruthy proc.encoding <;>
      · simp only [run_proc, h, if_true, if_false, Bool.false_eq_true]
        exact ⟨_, _, ((check_process_spec proc S none _ _ c h1 h2).1.mpr h3)⟩
  · intro henc
    simp only [run_proc, henc, if_true]
    exact ⟨_, _, ((check_process_spec proc S none _ _ c h1 h2).1.mpr h3)⟩
  · intro hco hce henc
    simp only [run_proc, henc, hco, hce, if_true]
    exact (check_process_spec proc S none _ _ c h1 h2).1.mpr h3

/-- Witness for C6 at a concrete handle. -/
theorem C6_run_proc_witness :
    (run_proc [] 0 encodedProc (RetcodeSpec.single 0) none).1 = []
    ∧ (run_proc [] 0 encodedProc (RetcodeSpec.single 0) (some 7)).1
        = [] ++ [(encodedProc.pid, 0 + 7)]
    ∧ (run_proc [] 0 encodedProc (RetcodeSpec.single 0) none).2
        = .ok (some 0, .text "", .text "") := by
  have h := C6_run_proc [] 0 encodedProc (RetcodeSpec.single 0) 0 7 rfl rfl
    (Or.inr (by decide))
  exact ⟨h.1, h.2.1, h.2.2.2.2 rfl rfl rfl⟩

/-- Pushing onto a bounded buffer: the length grows by one up to the cap of
100 entries. -/
theorem buffPush_length (buff : List String) (l : String) (h : buff.length ≤ 100) :
    (buffPush buff l).length = min (buff.length + 1) 100 := by
  unfold buffPush
  by_cases h1 : 100 < (buff ++ [l]).length
  · rw [if_pos h1]
    simp only [List.length_append, List.length_singleton] at h1
    simp only [List.length_cons, List.length_drop, List.length_append,
      List.length_singleton, List.length_nil]
    omega
  · rw [if_neg h1]
    simp only [List.length_append, List.length_singleton] at h1 ⊢
    omega

/-- Exact length of a fold of pushes: the buffer retains
`min (initial + pushed) 100` entries. -/
theorem buffFoldl_length (lines : List String) :
    ∀ buff : List String, buff.length ≤ 100 →
      (List.foldl buffPush buff lines).length = min (buff.length + lines.length) 100 := by
  induction lines with
  | nil =>
      intro buff h
      simp only [List.foldl_nil, List.length_nil, Nat.add_zero]
      omega
  | cons l rest ih =>
      intro buff h
      rw [List.foldl_cons, ih (buffPush buff l) (by rw [buffPush_length _ _ h]; omega),
        buffPush_length _ _ h, List.length_cons]
      omega

/-- While the buffer stays within the cap, pushes are plain appends. -/
theorem buffFoldl_append_phase (lines : List String) :
    ∀ buff : List String, buff.length + lines.length ≤ 100 →
      List.foldl buffPush buff lines = buff ++ lines := by
  induction lines with
  | nil => intro buff _; simp
  | cons l rest ih =>
      intro buff h
      simp only [List.length_cons] at h
      have hb : buffPush buff l = buff ++ [l] := by
        unfold buffPush
        rw [if_neg]
        simp only [List.length_append, List.length_singleton]
        omega
      rw [List.foldl_cons, hb, ih (buff ++ [l]) (by simp; omega)]
      simp

/-- A push onto a full buffer splices the marker in front. -/
theorem buffPush_full (buff : List String) (l : String) (h : buff.length = 100) :
    buffPush buff l = elisionMarker :: (buff ++ [l]).drop 2 := by
  unfold buffPush
  rw [if_pos]
  simp only [List.length_append, List.length_singleton]
  omega

/-- Once the buffer is full, every further push keeps the marker in front. -/
theorem buffFoldl_head_marker (lines : List String) :
    ∀ buff : List String, buff.length = 100 → lines ≠ [] →
      (List.foldl buffPush buff lines).head? = some elisionMarker := by
  induction lines with
  | nil => intro _ _ hne; exact absurd rfl hne
  | cons l rest ih =>
      intro buff hb _
      rw [List.foldl_cons]
      rcases eq_or_ne rest [] with rfl | hne
      · simp [buffPush_full buff l hb]
      · refine ih (buffPush buff l) ?_ hne
        rw [buffPush_length _ _ (le_of_eq hb), hb]
        omega

/-- A push of a non-marker line onto a full buffer that holds either no marker
or exactly one leading marker yields a full buffer with exactly one leading
marker. -/
theorem buffPush_full_count (buff : List String) (l : String)
    (hlen : buff.length = 100) (hl : l ≠ elisionMarker)
    (hc : buff.count elisionMarker = 0
          ∨ (buff.head? = some elisionMarker ∧ buff.count elisionMarker = 1)) :
    (buffPush buff l).count elisionMarker = 1
    ∧ (buffPush buff l).head? = some elisionMarker
    ∧ (buffPush buff l).length = 100 := by
  have hpush := buffPush_full buff l hlen
  have hlen2 : (buffPush buff l).length = 100 := by
    rw [buffPush_length _ _ (le_of_eq hlen), hlen]
    omega
  refine ⟨?_, by simp [hpush], hlen2⟩
  rw [hpush]
  have hdropzero : ((buff ++ [l]).drop 2).count elisionMarker = 0 := by
    rcases hc with hzero | ⟨hhead, hone⟩
    · have happ : (buff ++ [l]).count elisionMarker = 0 := by
        rw [List.count_append, hzero]
        simp [List.count_singleton, hl.symm]
      have := (List.drop_sublist 2 (buff ++ [l])).count_le elisionMarker
      omega
    · rcases buff with _ | ⟨a, tl⟩
      · simp at hlen
      · have ha : a = elisionMarker := by simpa using hhead
        subst ha
        have htl : tl.count elisionMarker = 0 := by
          have := List.count_cons_self elisionMarker tl
          omega
        have happ : ((elisionMarker :: tl ++ [l]).drop 2).count elisionMarker
            ≤ (tl ++ [l]).count elisionMarker := by
          have hd : (elisionMarker :: tl ++ [l]).drop 2 = (tl ++ [l]).drop 1 := by
            simp [List.drop]
          rw [hd]
          exact (List.drop_sublist 1 (tl ++ [l])).count_le elisionMarker
        have htll : (tl ++ [l]).count elisionMarker = 0 := by
          rw [List.count_append, htl]
          simp [List.count_singleton, hl.symm]
        omega
  rw [List.count_cons_self, hdropzero]

/-- Folding further non-marker lines over a full buffer with at most one
leading marker ends with exactly one marker retained. -/
theorem buffFoldl_marker_phase (lines : List String) :
    ∀ buff : List String, (∀ l ∈ lines, l ≠ elisionMarker) → lines ≠ [] →
      buff.length = 100 →
      (buff.count elisionMarker = 0
        ∨ (buff.head? = some elisionMarker ∧ buff.count elisionMarker = 1)) →
      (List.foldl buffPush buff lines).count elisionMarker = 1 := by
  induction lines with
  | nil => intro _ _ hne; exact absurd rfl hne
  | cons l rest ih =>
      intro buff hclean _ hlen hc
      have hstep := buffPush_full_count buff l hlen (hclean l (List.mem_cons_self l rest)) hc
      rw [List.foldl_cons]
      rcases eq_or_ne rest [] with rfl | hne
      · simpa using hstep.1
      · exact ih (buffPush buff l) (fun x hx => hclean x (List.mem_cons_of_mem l hx)) hne
          hstep.2.2 (Or.inr ⟨hstep.2.1, hstep.1⟩)

/-- C8: an Output Accumulator never retains more than 100 entries; once a
stream has received more than 100 lines its buffer starts with the elision
marker, and (for streams whose lines do not collide with the marker text)
contains that marker exactly once in place of the collapsed older entries. -/
theorem C8_buffer_bound (lines : List String) :
    (buffFold lines).length ≤ 100
    ∧ (100 < lines.length → (buffFold lines).head? = some elisionMarker)
    ∧ ((∀ l ∈ lines, l ≠ elisionMarker) → 100 < lines.length →
        (buffFold lines).count elisionMarker = 1) := by
  have hsplit : List.foldl buffPush [] lines
      = List.foldl buffPush (List.foldl buffPush [] (lines.take 100)) (lines.drop 100) := by
    rw [← List.foldl_append, List.take_append_drop]
  refine ⟨?_, ?_, ?_⟩
  · have := buffFoldl_length lines [] (by simp)
    unfold buffFold
    omega
  · intro hlong
    have htake : (List.foldl buffPush [] (lines.take 100)).length = 100 := by
      rw [buffFoldl_length (lines.take 100) [] (by simp)]
      simp only [List.length_take, List.length_nil, Nat.zero_add]
      omega
    have hdrop : lines.drop 100 ≠ [] := by
      refine List.ne_nil_of_length_pos ?_
      rw [List.length_drop]
      omega
    unfold buffFold
    rw [hsplit]
    exact buffFoldl_head_marker (lines.drop 100) _ htake hdrop
  · intro hclean hlong
    have htakeeq : List.foldl buffPush [] (lines.take 100) = lines.take 100 := by
      have := buffFoldl_append_phase (lines.take 100) []
        (by simp only [List.length_nil, List.length_take, Nat.zero_add]; omega)
      simpa using this
    have htake : (lines.take 100 : List String).length = 100 := by
      simp only [List.length_take]
      omega
    have hdrop : lines.drop 100 ≠ [] := by
      refine List.ne_nil_of_length_pos ?_
      rw [List.length_drop]
      omega
    have hcount0 : (lines.take 100).count elisionMarker = 0 := by
      rw [List.count_eq_zero]
      intro hmem
      exact hclean elisionMarker (List.mem_of_mem_take hmem) rfl
    unfold buffFold
    rw [hsplit, htakeeq]
    exact buffFoldl_marker_phase (lines.drop 100) (lines.take 100)
      (fun x hx => hclean x (List.mem_of_mem_drop hx)) hdrop htake (Or.inl hcount0)

/-- Witness for C8: a stream that emitted 500 lines. -/
theorem C8_buffer_bound_witness :
    (buffFold (List.replicate 500 "x")).length ≤ 100
    ∧ (buffFold (List.replicate 500 "x")).head? = some elisionMarker
    ∧ (buffFold (List.replicate 500 "x")).count elisionMarker = 1 := by
  have h := C8_buffer_bound (List.replicate 500 "x")
  have hlong : 100 < (List.replicate 500 "x").length := by
    rw [List.length_replicate]
    omega
  refine ⟨h.1, h.2.1 hlong, h.2.2 ?_ hlong⟩
  intro l hl
  rw [List.eq_of_mem_replicate hl]
  decide

/-- C9 counterexample: with an encoding configured, decoding the line
`b"ab\t\n"` yields `"ab"` — the trailing tab is stripped along with the
newline, whereas the claim says everything but the trailing newline (so
`"ab\t"`) is left intact. -/
theorem C9_counterexample :
    iterDecodeFn encodedProc [97, 98, 9, 10] = .ok (.text "ab")
    ∧ "ab" ≠ "ab\t" := by
  constructor
  · decide
  · decide

/-- C9 amended: the decode function is determined solely by the handle's
encoding: with no (truthy) encoding it is a raw-bytes pass-through, and with
one configured each well-formed line is decoded and then stripped of all its
trailing whitespace (Python `str.rstrip()`) — the trailing newline included,
but also any other trailing whitespace, not only the newline. -/
theorem C9_decode_rstrip (proc : Proc) (bs : List Nat) :
    (encTruthy proc.encoding = false → iterDecodeFn proc bs = .ok (.bytes bs))
    ∧ (encTruthy proc.encoding = true → bs.all (fun b => b < 128) = true →
        iterDecodeFn proc bs = .ok (.text (pyRstrip (pyDecodeIgnore bs)))) := by
  constructor
  · intro h
    simp [iterDecodeFn, h]
  · intro h hall
    simp [iterDecodeFn, h, pyDecodeStrict, hall]

/-- Witness for C9 (amended) at concrete handles and bytes. -/
theorem C9_decode_rstrip_witness :
    iterDecodeFn sampleProc [10] = .ok (.bytes [10])
    ∧ iterDecodeFn encodedProc [97, 32, 10]
        = .ok (.text (pyRstrip (pyDecodeIgnore [97, 32, 10]))) := by
  have h1 := (C9_decode_rstrip sampleProc [10]).1 rfl
  have h2 := (C9_decode_rstrip encodedProc [97, 32, 10]).2 (by decide) (by decide)
  exact ⟨h1, h2⟩

/-- C7: on early abandonment with `close_on_abort` the handle's `close` is
invoked and all three channels are closed before the abandonment propagates —
but on normal exhaustion `iter_lines` releases nothing: `close` is never
called and stdin stays open, so the claim that every exit path leaves no
unreleased iteration resources fails on the normal-exhaustion path (the
function's own docstring promises the process will be closed once the
generator is done). -/
theorem C7_iter_abort_vs_exhaustion :
    ((iter_lines_run sampleProc chattyRecords (RetcodeSpec.single 0) none true
        (.abortAfter 1)).2.1.closedCalled = true
      ∧ (iter_lines_run sampleProc chattyRecords (RetcodeSpec.single 0) none true
        (.abortAfter 1)).2.1.stdinOpen = false
      ∧ (iter_lines_run sampleProc chattyRecords (RetcodeSpec.single 0) none true
        (.abortAfter 1)).2.1.stdoutAttr = .chan false
      ∧ (iter_lines_run sampleProc chattyRecords (RetcodeSpec.single 0) none true
        (.abortAfter 1)).2.1.stderrAttr = .chan false
      ∧ (iter_lines_run sampleProc chattyRecords (RetcodeSpec.single 0) none true
        (.abortAfter 1)).2.2 = .aborted)
    ∧ ((iter_lines_run sampleProc chattyRecords (RetcodeSpec.single 0) none true
        .all).2.1.closedCalled = false
      ∧ (iter_lines_run sampleProc chattyRecords (RetcodeSpec.single 0) none true
        .all).2.1.stdinOpen = true) :=
  ⟨⟨rfl, rfl, rfl, rfl, rfl⟩, rfl, rfl⟩

/-- C10: on normal exhaustion `iter_lines` overwrites the handle's
`stdout`/`stderr` attributes with the newline-joined accumulator text and
invokes the Result Classifier on the updated handle with exactly those
strings. -/
theorem C10_stdout_overwritten (proc : Proc) (records : List (Fin 2 × String))
    (S : RetcodeSpec) (t : Option Nat) (cb : Bool) :
    (iter_lines_run proc records S t cb .all).2.1.stdoutAttr
        = .text (String.intercalate "\n" (runBuffers records).1)
    ∧ (iter_lines_run proc records S t cb .all).2.1.stderrAttr
        = .text (String.intercalate "\n" (runBuffers records).2)
    ∧ (iter_lines_run proc records S t cb .all).2.2
        = .completed (_check_process (iter_lines_run proc records S t cb .all).2.1 S t
            (.text (String.intercalate "\n" (runBuffers records).1))
            (.text (String.intercalate "\n" (runBuffers records).2))) :=
  ⟨rfl, rfl, rfl⟩

end Plumbum

